import Mathlib

/-!
Shallow embedding of the promis-preprocessing pipeline
(`src/promis_preprocess/*.py`, `scripts/*.py`) and proofs about it.

Modelling conventions:
  - Python machine-level concerns do not arise: all counters are `Nat`,
    DICOM tag values and paths are `String`, geometric quantities are `Rat`.
  - A series directory is modelled by its `os.listdir` entry list plus the
    outcome of attempting to decode it (`Except` cause-string / loaded series):
    the external decoder (SimpleITK) is opaque, so the decode outcome is data.
  - Timestamps are threaded as an explicit `now : String` parameter; real
    clock time is outside the embedding.
  - Writes to the processing log and to `stdout` are modelled as accumulated
    lists of lines; writes of image files as `(path, image)` pairs.
-/

namespace PromisPreprocess

/-- One entry of a directory listing (`os.listdir`): a name, and whether the
entry is a regular file (as opposed to a subdirectory). -/
structure Entry where
  name : String
  isFile : Bool
deriving DecidableEq, Repr

/-- An in-memory volumetric image as produced by the external decoder:
grid geometry (size, spacing, origin, direction cosines) and a flattened
voxel buffer. -/
structure Image where
  size : Nat × Nat × Nat
  spacing : Rat × Rat × Rat
  origin : Rat × Rat × Rat
  direction : List Rat
  voxels : List Int
deriving DecidableEq, Repr

/-- The identifying DICOM tags read from the first slice of a successfully
decoded series, together with the decoded image.  Tag-read failures are folded
into the decode outcome (`SeriesDir.load`), since in the source both raise
inside the same `try` block of `process_dicom_series`. -/
structure LoadedSeries where
  image : Image
  patient_id : String
  study_id : String
  series_id : String
  scanner_type : String
  scanner_manufacturer : String
  scanner_model : String
  magnetic_field_strength : String
  series_description : String
deriving DecidableEq, Repr

/-- A candidate series directory yielded by discovery: its path, its
`os.listdir` listing, and the outcome of decoding it (error cause, or the
loaded series with its first-slice tags). -/
structure SeriesDir where
  path : String
  entries : List Entry
  load : Except String LoadedSeries
deriving Repr

/-- The canonical lookup table built by `load_series_descriptions`:
`(patient_id, normalized series_description) → generic_sequence_label`. -/
abbrev LookupTable := List ((String × String) × String)

/-- The normalization both lookup sites apply to a series description:
Python's `s.replace(' ', '')`, i.e. every occurrence of the space character
is removed (embedded as a character filter, which for a single-character
pattern is exactly `str.replace`). -/
def normalizeDescription (s : String) : String :=
  String.mk (s.data.filter (fun c => decide (c ≠ ' ')))

/-- Embeds `load_series_descriptions`: rename columns, normalize the
description column, drop the first data row (`iloc[1:]`), and index by
`(patient_id, series_description)`. -/
def load_series_descriptions (rows : List (String × String × String)) : LookupTable :=
  (rows.map (fun r => ((r.1, normalizeDescription r.2.1), r.2.2))).drop 1

/-- Indexing the table by a key (`series_descriptions.loc[(pid, desc)]`):
`some label` on a hit, `none` where Python raises `KeyError`. -/
def lookupLabel (table : LookupTable) (key : String × String) : Option String :=
  (table.find? (fun e => decide (e.1 = key))).map (fun e => e.2)

/-- One row of the metadata table, exactly the dict built by
`extract_metadata_from_reader`. -/
structure SeriesRecord where
  patient_id : String
  study_id : String
  series_id : String
  scanner_type : String
  scanner_manufacturer : String
  scanner_model : String
  magnetic_field_strength : String
  series_description : String
  generic_sequence_label : String
  num_dicom_files : Nat
  num_loaded_slices : Nat
  size : Nat × Nat × Nat
  pixel_spacing : Rat × Rat × Rat
  folder_path : String
deriving DecidableEq, Repr

/-- Embeds `extract_metadata_from_reader`.  Returns the record together with
the lines printed to stdout (the lookup-miss warning, when the
`(patient_id, normalized description)` key is absent and the `KeyError`
branch assigns the sentinel `"unknown"`).  `num_dicom_files` is
`len(os.listdir(path))`, i.e. the length of the full entry list.
`relPath` stands for `os.path.relpath(path, base_path)`. -/
def extract_metadata_from_reader (s : LoadedSeries) (entries : List Entry)
    (table : LookupTable) (relPath : String) : SeriesRecord × List String :=
  let label? := lookupLabel table (s.patient_id, normalizeDescription s.series_description)
  ({ patient_id := s.patient_id
     study_id := s.study_id
     series_id := s.series_id
     scanner_type := s.scanner_type
     scanner_manufacturer := s.scanner_manufacturer
     scanner_model := s.scanner_model
     magnetic_field_strength := s.magnetic_field_strength
     series_description := s.series_description
     generic_sequence_label := label?.getD "unknown"
     num_dicom_files := entries.length
     num_loaded_slices := s.image.size.2.2
     size := s.image.size
     pixel_spacing := s.image.spacing
     folder_path := relPath },
   if label?.isNone then
     ["Warning: No generic sequence label found for patient " ++ s.patient_id ++
       ", series " ++ s.series_description]
   else [])

/-- The timestamped `ERROR` line `process_dicom_series` appends to the log. -/
def errorLine (now path cause : String) : String :=
  "[" ++ now ++ "] ERROR: " ++ path ++ ": " ++ cause

/-- The timestamped `WARNING` line `process_dicom_series` appends on a
slice-count mismatch. -/
def warningLine (now path : String) (numFiles numSlices : Nat) : String :=
  "[" ++ now ++ "] WARNING: " ++ path ++ " contains " ++ toString numFiles ++
    " DICOM files, but loaded series has " ++ toString numSlices ++ " slices"

/-- Embeds `process_dicom_series`: on decode/tag failure return
`(none, cause)` and log an `ERROR` line; otherwise extract the record, then
compare `len(os.listdir(path))` against `image.GetSize()[2]` — on mismatch
return the record with the marker `'warning'` and log a `WARNING` line, else
return the record with no marker.  The third component is the list of log
lines appended, the fourth the lines printed to stdout by extraction. -/
def process_dicom_series (table : LookupTable) (now : String) (d : SeriesDir) :
    Option SeriesRecord × Option String × List String × List String :=
  match d.load with
  | Except.error e => (none, some e, [errorLine now d.path e], [])
  | Except.ok s =>
      let mp := extract_metadata_from_reader s d.entries table d.path
      let numFiles := d.entries.length
      let numSlices := s.image.size.2.2
      if numFiles ≠ numSlices then
        (some mp.1, some "warning", [warningLine now d.path numFiles numSlices], mp.2)
      else
        (some mp.1, none, [], mp.2)

/-- The run counters of one ingestion run
(`stats = {'processed': 0, 'errors': 0, 'warnings': 0}`). -/
structure Stats where
  processed : Nat
  errors : Nat
  warnings : Nat
deriving DecidableEq, Repr

/-- The accumulated state of `process_all_dicom_series`: records so far, the
counters, the log-file content and the stdout lines. -/
structure RunState where
  records : List SeriesRecord
  stats : Stats
  log : List String
  printed : List String
deriving Repr

/-- The body of the loop in `process_all_dicom_series` for one directory:
a produced record is appended and `processed` incremented (plus `warnings`
when the marker is `'warning'`); a `none` result increments `errors`. -/
def stepSeries (table : LookupTable) (now : String) (st : RunState) (d : SeriesDir) :
    RunState :=
  match process_dicom_series table now d with
  | (some r, err, lines, pr) =>
      { records := st.records ++ [r]
        stats := { processed := st.stats.processed + 1
                   errors := st.stats.errors
                   warnings := st.stats.warnings + (if err = some "warning" then 1 else 0) }
        log := st.log ++ lines
        printed := st.printed ++ pr }
  | (none, _, lines, pr) =>
      { records := st.records
        stats := { st.stats with errors := st.stats.errors + 1 }
        log := st.log ++ lines
        printed := st.printed ++ pr }

/-- Embeds `process_all_dicom_series` from the point where the candidate
directory list is in hand: write the run-start banner, fold the per-directory
step over the directories, then append the run-end summary lines. -/
def process_all_dicom_series (table : LookupTable) (now : String)
    (dirs : List SeriesDir) : RunState :=
  let init : RunState :=
    { records := []
      stats := { processed := 0, errors := 0, warnings := 0 }
      log := ["DICOM Processing Log - Started at " ++ now,
              String.mk (List.replicate 50 '=')]
      printed := [] }
  let final := dirs.foldl (stepSeries table now) init
  { final with
      log := final.log ++
        ["Processing completed at " ++ now,
         "Final stats: " ++ toString final.stats.processed ++ " processed, " ++
           toString final.stats.errors ++ " errors, " ++
           toString final.stats.warnings ++ " warnings"] }

/-- Embeds `log_processing_summary`, with Python's division semantics made
explicit: when `processed + errors = 0` the expression
`processed/(processed+errors)` raises `ZeroDivisionError`; otherwise the
summary lines are appended to the log. -/
def log_processing_summary (st : Stats) : Except String (List String) :=
  if st.processed + st.errors = 0 then
    Except.error "ZeroDivisionError: division by zero"
  else
    Except.ok
      ["=== Processing Summary ===",
       "Total processed: " ++ toString st.processed,
       "Total errors: " ++ toString st.errors,
       "Total warnings: " ++ toString st.warnings,
       "Success rate: " ++
         toString ((st.processed : Rat) / ((st.processed : Rat) + (st.errors : Rat)) * 100)]

/-- The rows of the metadata table sharing one `study_id`
(one group of `metadata.groupby('study_id')`, in stored row order). -/
def studyGroup (records : List SeriesRecord) (sid : String) : List SeriesRecord :=
  records.filter (fun r => decide (r.study_id = sid))

/-- The distinct `study_id` keys, in the sorted order `groupby` iterates
them (pandas sorts group keys by default). -/
def studyIds (records : List SeriesRecord) : List String :=
  ((records.map (fun r => r.study_id)).dedup).mergeSort (fun a b => decide (a ≤ b))

/-- The `found_types` list of `select_single_series_per_type`: the required
series types for which the group has at least one row with that
`generic_sequence_label`. -/
def foundTypes (series_types : List String) (group : List SeriesRecord) : List String :=
  series_types.filter
    (fun t => !(group.filter (fun r => decide (r.generic_sequence_label = t))).isEmpty)

/-- The per-study body of `select_single_series_per_type`: if
`set(found_types) == set(series_types)` then for each required type take the
last row of the group carrying it (`seq_group.iloc[-1]`), else contribute
nothing. -/
def selectForStudy (series_types : List String) (group : List SeriesRecord) :
    List SeriesRecord :=
  if (foundTypes series_types group).toFinset = series_types.toFinset then
    series_types.filterMap
      (fun t => (group.filter (fun r => decide (r.generic_sequence_label = t))).getLast?)
  else []

/-- Embeds `select_single_series_per_type`: group the table by `study_id`
and concatenate the per-study selections. -/
def select_single_series_per_type (series_types : List String)
    (records : List SeriesRecord) : List SeriesRecord :=
  (studyIds records).flatMap (fun sid => selectForStudy series_types (studyGroup records sid))

/-- An interpolation mode of the external resampling primitive
(`sitk.sitkNearestNeighbor`, `sitk.sitkLinear`). -/
inductive Interpolator where
  | nearestNeighbor : Interpolator
  | linear : Interpolator
deriving DecidableEq, Repr

/-- A configured `sitk.ResampleImageFilter` after `SetReferenceImage` and
`SetInterpolator`. -/
structure Resampler where
  referenceImage : Image
  interpolator : Interpolator
deriving Repr

/-- The source index nearest to output index `i`: map `i` through the output
grid to a physical position, back through the input grid, round, and clamp
into `[0, n-1]` (axis-aligned model of the geometric mapping). -/
def nearestIndex (outOrigin outSpacing inOrigin inSpacing : Rat) (n : Nat) (i : Nat) :
    Nat :=
  let pos := outOrigin + (i : Rat) * outSpacing
  let j : Int := round ((pos - inOrigin) / inSpacing)
  Int.toNat (max 0 (min j ((n : Int) - 1)))

/-- The voxel of `img` at grid coordinates `(x, y, z)` in its flattened
buffer (out-of-range reads give `0`). -/
def voxelAt (img : Image) (x y z : Nat) : Int :=
  img.voxels.getD (z * (img.size.1 * img.size.2.1) + y * img.size.1 + x) 0

/-- Modelled from the spec: the external geometric resampling primitive
(`resample.Execute`), specified in the design only at its interface boundary
("resample a volume onto another volume's grid using a named interpolation
mode").  The output takes the reference grid — size, spacing, origin,
direction — exactly; each output voxel is drawn from the input volume, for
nearest-neighbor by rounding the grid-mapped position to the nearest source
index (axis-aligned simplification of the direction handling; `linear` is
modelled with a floor-based index as a stand-in, the pipeline only ever
configures nearest-neighbor). -/
def resampleExecute (rs : Resampler) (img : Image) : Image :=
  let ref := rs.referenceImage
  let pick : Rat → Rat → Rat → Rat → Nat → Nat → Nat :=
    match rs.interpolator with
    | Interpolator.nearestNeighbor => nearestIndex
    | Interpolator.linear => fun oO oS iO iS n i =>
        Int.toNat (max 0 (min (Int.floor ((oO + (i : Rat) * oS - iO) / iS)) ((n : Int) - 1)))
  { size := ref.size
    spacing := ref.spacing
    origin := ref.origin
    direction := ref.direction
    voxels := (List.range (ref.size.1 * ref.size.2.1 * ref.size.2.2)).map (fun idx =>
      let x := idx % ref.size.1
      let y := (idx / ref.size.1) % ref.size.2.1
      let z := idx / (ref.size.1 * ref.size.2.1)
      voxelAt img
        (pick ref.origin.1 ref.spacing.1 img.origin.1 img.spacing.1 img.size.1 x)
        (pick ref.origin.2.1 ref.spacing.2.1 img.origin.2.1 img.spacing.2.1 img.size.2.1 y)
        (pick ref.origin.2.2 ref.spacing.2.2 img.origin.2.2 img.spacing.2.2 img.size.2.2 z)) }

/-- Path concatenation as `os.path.join` behaves on the relative second
arguments this pipeline uses. -/
def pathJoin (a b : String) : String :=
  if a = "" then b
  else if "/".data <:+ a.data then a ++ b
  else a ++ "/" ++ b

/-- Dictionary access `series_to_process[t]` on the ordered
label-to-slot-name mapping: `some slot` on a hit, `none` where Python raises
`KeyError`. -/
def lookupSlot (series_to_process : List (String × String)) (t : String) :
    Option String :=
  (series_to_process.find? (fun p => decide (p.1 = t))).map (fun p => p.2)

/-- Embeds the per-study body of `process_and_save_studies` for one study
group.  The filesystem is the function `fs` from a series path to the volume
the decoder loads from it.  Returns the `(output path, image)` pairs written
(`sitk.WriteImage` calls) in order: the reference image first, unmodified,
then each non-reference required type resampled through the
nearest-neighbor-configured resampler.  `none` models the indexing errors
(`iloc[0]` on an empty selection, `KeyError` on the slot lookup) that abort
the study. -/
def process_study (fs : String → Image) (series_to_process : List (String × String))
    (reference_series : String) (dicom_processed dicom_raw : String)
    (study_id : String) (study : List SeriesRecord) : Option (List (String × Image)) := do
  let first ← study.head?
  let save_path := pathJoin dicom_processed (first.patient_id ++ "/" ++ study_id ++ "/")
  let ref_row ←
    (study.filter (fun r => decide (r.generic_sequence_label = reference_series))).head?
  let reference_image := fs (pathJoin dicom_raw ref_row.folder_path)
  let refSlot ← lookupSlot series_to_process reference_series
  let resampler : Resampler :=
    { referenceImage := reference_image, interpolator := Interpolator.nearestNeighbor }
  let rest ← (series_to_process.filter (fun p => decide (p.1 ≠ reference_series))).mapM
    (fun p => do
      let add_row ←
        (study.filter (fun r => decide (r.generic_sequence_label = p.1))).head?
      let add_image := fs (pathJoin dicom_raw add_row.folder_path)
      pure (pathJoin save_path ("image_" ++ p.2 ++ ".mha"),
            resampleExecute resampler add_image))
  pure ((pathJoin save_path ("image_" ++ refSlot ++ ".mha"), reference_image) :: rest)

/-- One cell of the persisted metadata table, typed as the `SeriesRecord`
fields are typed. -/
inductive Cell where
  | str : String → Cell
  | nat : Nat → Cell
  | natTriple : Nat × Nat × Nat → Cell
  | ratTriple : Rat × Rat × Rat → Cell
deriving DecidableEq, Repr

/-- Modelled from the spec: the Metadata Store persistence
(`save_metadata_to_parquet` / `pd.read_parquet`), an external tabular-file
round trip specified at its interface boundary as a schema-stable table
"with exactly the SeriesRecord fields as columns".  A persisted row holds
the fourteen field values as typed cells in schema order. -/
def encodeRecord (r : SeriesRecord) : List Cell :=
  [Cell.str r.patient_id, Cell.str r.study_id, Cell.str r.series_id,
   Cell.str r.scanner_type, Cell.str r.scanner_manufacturer, Cell.str r.scanner_model,
   Cell.str r.magnetic_field_strength, Cell.str r.series_description,
   Cell.str r.generic_sequence_label, Cell.nat r.num_dicom_files,
   Cell.nat r.num_loaded_slices, Cell.natTriple r.size, Cell.ratTriple r.pixel_spacing,
   Cell.str r.folder_path]

/-- Modelled from the spec: reading one persisted row back into a
`SeriesRecord`; a row not matching the schema fails. -/
def decodeRecord : List Cell → Option SeriesRecord
  | [Cell.str pid, Cell.str sid, Cell.str serid, Cell.str sct, Cell.str scm,
     Cell.str scmo, Cell.str mfs, Cell.str sdesc, Cell.str gsl, Cell.nat ndf,
     Cell.nat nls, Cell.natTriple sz, Cell.ratTriple sp, Cell.str fp] =>
      some { patient_id := pid, study_id := sid, series_id := serid,
             scanner_type := sct, scanner_manufacturer := scm, scanner_model := scmo,
             magnetic_field_strength := mfs, series_description := sdesc,
             generic_sequence_label := gsl, num_dicom_files := ndf,
             num_loaded_slices := nls, size := sz, pixel_spacing := sp,
             folder_path := fp }
  | _ => none

/-- Writing the accumulated record list to the metadata artifact
(`save_metadata_to_parquet`), row-wise. -/
def save_metadata (records : List SeriesRecord) : List (List Cell) :=
  records.map encodeRecord

/-- Reading the metadata artifact back (`pd.read_parquet`), row-wise: every
row must decode, else the read fails. -/
def load_metadata : List (List Cell) → Option (List SeriesRecord)
  | [] => some []
  | row :: rest => do
      let r ← decodeRecord row
      let rs ← load_metadata rest
      pure (r :: rs)

/-- The specification-side count of image-format files in a directory
listing: entries that are files whose name ends in the recognized
image-series extension `.dcm`.  Stated from the spec's words, for comparison
with the source's `len(os.listdir(path))`. -/
def specImageFileCount (entries : List Entry) : Nat :=
  (entries.filter (fun e => e.isFile && decide (".dcm".data <:+ e.name.data))).length

/-! Concrete fixture data used to instantiate the theorems below on small
inputs. -/

/-- A tiny volume: `z` slices of a single voxel. -/
def sampleImage (z : Nat) : Image :=
  { size := (1, 1, z)
    spacing := (1, 1, 1)
    origin := (0, 0, 0)
    direction := [1, 0, 0, 0, 1, 0, 0, 0, 1]
    voxels := List.replicate z 7 }

/-- A loaded series with the given identifying tags over a tiny volume. -/
def sampleLoaded (pid sid desc : String) (z : Nat) : LoadedSeries :=
  { image := sampleImage z
    patient_id := pid
    study_id := sid
    series_id := "ser1"
    scanner_type := "MR"
    scanner_manufacturer := "M"
    scanner_model := "X"
    magnetic_field_strength := "3"
    series_description := desc }

/-- A metadata row with the given study, canonical label and source path. -/
def sampleRecord (sid lbl fp : String) : SeriesRecord :=
  { patient_id := "P"
    study_id := sid
    series_id := "ser1"
    scanner_type := "MR"
    scanner_manufacturer := "M"
    scanner_model := "X"
    magnetic_field_strength := "3"
    series_description := lbl ++ " ax"
    generic_sequence_label := lbl
    num_dicom_files := 1
    num_loaded_slices := 1
    size := (1, 1, 1)
    pixel_spacing := (1, 1, 1)
    folder_path := fp }

/-- A directory whose decode fails. -/
def c2ErrDir : SeriesDir :=
  { path := "raw/P/S/ser1", entries := [⟨"a.dcm", true⟩], load := Except.error "boom" }

/-- An empty initial run state. -/
def emptyRunState : RunState :=
  { records := [], stats := { processed := 0, errors := 0, warnings := 0 },
    log := [], printed := [] }

/-- Two distinct rows of one study, both labeled `T1`, in stored order. -/
def c3RecA : SeriesRecord := sampleRecord "S" "T1" "pA"

/-- The second of the two `T1` rows. -/
def c3RecB : SeriesRecord := sampleRecord "S" "T1" "pB"

/-- A directory that decodes fine but whose series description has no entry
in the lookup table. -/
def c4Dir : SeriesDir :=
  { path := "raw/P/S/ser1", entries := [⟨"a.dcm", true⟩],
    load := Except.ok (sampleLoaded "P" "S" "mystery seq" 1) }

/-- A loaded series for the directory-entry counting fixtures. -/
def c6Loaded : LoadedSeries := sampleLoaded "P" "S" "T1 ax" 3

/-- A listing holding one image-format file, one other file and one
subdirectory. -/
def c6Entries : List Entry :=
  [⟨"a.dcm", true⟩, ⟨"notes.txt", true⟩, ⟨"sub", false⟩]

/-- The single reference volume of the resampling fixture. -/
def c7Img : Image :=
  { size := (1, 1, 1), spacing := (1, 1, 1), origin := (0, 0, 0),
    direction := [1, 0, 0, 0, 1, 0, 0, 0, 1], voxels := [5] }

/-- A filesystem in which every series path loads the same tiny volume. -/
def c7Fs : String → Image := fun _ => c7Img

/-- The `T1` row of the resampling fixture study. -/
def c7RecT1 : SeriesRecord := sampleRecord "S" "T1" "pT1"

/-- The `T2` row of the resampling fixture study. -/
def c7RecT2 : SeriesRecord := sampleRecord "S" "T2" "pT2"

/-- The fixture study group: one `T1` row, one `T2` row. -/
def c7Study : List SeriesRecord := [c7RecT1, c7RecT2]

/-- The outputs `process_study` writes for the fixture study. -/
def c7Outs : List (String × Image) :=
  [("out/P/S/image_t1.mha", c7Img),
   ("out/P/S/image_t2.mha",
     resampleExecute
       { referenceImage := c7Img, interpolator := Interpolator.nearestNeighbor } c7Img)]

/-! Theorems. -/

/-- C10: for an ingestion run whose discovery yields no series directories,
the final counters are `processed = 0` and `errors = 0`, and
`log_processing_summary` fails with a division-by-zero error, because the
success rate `processed/(processed+errors)` is computed without guarding
against a zero denominator. -/
theorem empty_run_summary_division_by_zero (table : LookupTable) (now : String) :
    (process_all_dicom_series table now []).stats.processed = 0 ∧
    (process_all_dicom_series table now []).stats.errors = 0 ∧
    log_processing_summary (process_all_dicom_series table now []).stats =
      Except.error "ZeroDivisionError: division by zero" :=
  ⟨rfl, rfl, rfl⟩

/-- Decoding an encoded row restores the record exactly. -/
theorem decodeRecord_encodeRecord (r : SeriesRecord) :
    decodeRecord (encodeRecord r) = some r := rfl

/-- C9: writing the accumulated `SeriesRecord` list to the metadata artifact
and reading it back restores every field of every record exactly, including
the tuple-valued fields `size` (volume size) and `pixel_spacing` (voxel
spacing): the round trip is lossless. -/
theorem metadata_round_trip (records : List SeriesRecord) :
    load_metadata (save_metadata records) = some records := by
  induction records with
  | nil => rfl
  | cons r rs ih =>
      simp only [save_metadata, List.map_cons] at ih ⊢
      simp [load_metadata, decodeRecord_encodeRecord, ih]

/-- Normalization removes every space character. -/
theorem normalizeDescription_no_space (s : String) :
    ∀ c ∈ (normalizeDescription s).data, c ≠ ' ' := by
  intro c hc
  have h : c ∈ s.data.filter (fun c => decide (c ≠ ' ')) := hc
  have := (List.mem_filter.mp h).2
  simpa using this

/-- C5, counterexample: the claim says normalization removes all whitespace
characters; on the description `"a\tb"` the tab character survives
normalization (only spaces are removed), so it is false. -/
theorem whitespace_normalization_cex :
    ¬ (∀ c ∈ (normalizeDescription "a\tb").data, c.isWhitespace = false) := by
  decide

/-- C5, amended: the normalization applied before lookup removes exactly the
space characters from the description — no space survives, every other
character (whitespace or not, e.g. tabs and newlines) is preserved — and the
keys of the table built by `load_series_descriptions` are normalized the
same way (no key contains a space). -/
theorem normalization_removes_exactly_spaces (s : String) :
    (∀ c ∈ (normalizeDescription s).data, c ≠ ' ') ∧
    (∀ c ∈ (normalizeDescription s).data, c ∈ s.data) ∧
    (∀ c ∈ s.data, c ≠ ' ' → c ∈ (normalizeDescription s).data) ∧
    (∀ rows : List (String × String × String), ∀ e ∈ load_series_descriptions rows,
      ∀ c ∈ e.1.2.data, c ≠ ' ') := by
  refine ⟨normalizeDescription_no_space s, ?_, ?_, ?_⟩
  · intro c hc
    have h : c ∈ s.data.filter (fun c => decide (c ≠ ' ')) := hc
    exact (List.mem_filter.mp h).1
  · intro c hc hne
    have h : c ∈ s.data.filter (fun c => decide (c ≠ ' ')) :=
      List.mem_filter.mpr ⟨hc, by simpa using hne⟩
    exact h
  · intro rows e he c hc
    have hmap : e ∈ rows.map
        (fun r => ((r.1, normalizeDescription r.2.1), r.2.2)) :=
      List.mem_of_mem_drop he
    obtain ⟨r, _, rfl⟩ := List.mem_map.mp hmap
    exact normalizeDescription_no_space r.2.1 c hc

/-- C5, witness: on `"a b"` the non-space characters survive and no space
remains. -/
theorem normalization_removes_exactly_spaces_witness :
    'b' ∈ (normalizeDescription "a b").data ∧
    (∀ c ∈ (normalizeDescription "a b").data, c ≠ ' ') :=
  ⟨(normalization_removes_exactly_spaces "a b").2.2.1 'b' (by decide) (by decide),
   (normalization_removes_exactly_spaces "a b").1⟩

/-- C6, counterexample: the claim says `num_source_files` counts only the
image-format files of the directory; on a listing with one `.dcm` file, one
`.txt` file and one subdirectory the source stores `3`
(`len(os.listdir(path))`), while the image-format file count is `1`. -/
theorem num_source_files_cex :
    (extract_metadata_from_reader c6Loaded c6Entries [] "p").1.num_dicom_files ≠
      specImageFileCount c6Entries := by
  decide

/-- C6, amended: `num_source_files` equals the total number of entries
directly contained in the directory — every entry is counted, whatever its
extension and whether it is a file or a subdirectory.  It is an upper bound
of the image-format file count, and coincides with it exactly when every
entry is an image-format file. -/
theorem num_source_files_counts_all_entries (s : LoadedSeries) (entries : List Entry)
    (table : LookupTable) (relPath : String) :
    (extract_metadata_from_reader s entries table relPath).1.num_dicom_files =
      entries.length ∧
    specImageFileCount entries ≤ entries.length ∧
    ((∀ e ∈ entries, (e.isFile && decide (".dcm".data <:+ e.name.data)) = true) →
      (extract_metadata_from_reader s entries table relPath).1.num_dicom_files =
        specImageFileCount entries) := by
  refine ⟨rfl, List.length_filter_le _ _, ?_⟩
  intro h
  simp only [specImageFileCount, List.filter_eq_self.mpr h]
  rfl

/-- C6, witness: on a directory holding exactly one `.dcm` file the two
counts agree. -/
theorem num_source_files_counts_all_entries_witness :
    (extract_metadata_from_reader c6Loaded [⟨"a.dcm", true⟩] [] "p").1.num_dicom_files =
      specImageFileCount [⟨"a.dcm", true⟩] :=
  (num_source_files_counts_all_entries c6Loaded [⟨"a.dcm", true⟩] [] "p").2.2 (by decide)

/-- Each directory contributes exactly one unit to `processed + errors`. -/
theorem stepSeries_outcome_total (table : LookupTable) (now : String)
    (st : RunState) (d : SeriesDir) :
    (stepSeries table now st d).stats.processed + (stepSeries table now st d).stats.errors =
      st.stats.processed + st.stats.errors + 1 := by
  rcases hproc : process_dicom_series table now d with ⟨o, err, lines, pr⟩
  cases o <;> simp [stepSeries, hproc] <;> omega

/-- Folding the per-directory step consumes every directory: the total of
`processed + errors` grows by exactly the number of directories. -/
theorem foldl_stepSeries_outcome_total (table : LookupTable) (now : String) :
    ∀ (dirs : List SeriesDir) (st : RunState),
      (dirs.foldl (stepSeries table now) st).stats.processed +
        (dirs.foldl (stepSeries table now) st).stats.errors =
        st.stats.processed + st.stats.errors + dirs.length := by
  intro dirs
  induction dirs with
  | nil => intro st; simp
  | cons d ds ih =>
      intro st
      simp only [List.foldl_cons, List.length_cons]
      rw [ih]
      have h := stepSeries_outcome_total table now st d
      omega

/-- C2: per candidate directory the outcome is classified in priority
order — a decode/tag failure yields no record, increments only `errors` and
appends a timestamped `ERROR` line naming the path and the cause; a
slice-count mismatch still appends the record and increments both
`processed` and `warnings`, appending a timestamped `WARNING` line;
otherwise the record is appended and only `processed` increments.  No
outcome aborts the run: over any directory list the run classifies every
directory, `processed + errors` equalling the number of directories. -/
theorem per_directory_outcome_classification (table : LookupTable) (now : String)
    (d : SeriesDir) (st : RunState) :
    (∀ e, d.load = Except.error e →
      stepSeries table now st d =
        { records := st.records
          stats := { processed := st.stats.processed, errors := st.stats.errors + 1,
                     warnings := st.stats.warnings }
          log := st.log ++ [errorLine now d.path e]
          printed := st.printed }) ∧
    (∀ s, d.load = Except.ok s → d.entries.length ≠ s.image.size.2.2 →
      stepSeries table now st d =
        { records := st.records ++ [(extract_metadata_from_reader s d.entries table d.path).1]
          stats := { processed := st.stats.processed + 1, errors := st.stats.errors,
                     warnings := st.stats.warnings + 1 }
          log := st.log ++ [warningLine now d.path d.entries.length s.image.size.2.2]
          printed := st.printed ++ (extract_metadata_from_reader s d.entries table d.path).2 }) ∧
    (∀ s, d.load = Except.ok s → d.entries.length = s.image.size.2.2 →
      stepSeries table now st d =
        { records := st.records ++ [(extract_metadata_from_reader s d.entries table d.path).1]
          stats := { processed := st.stats.processed + 1, errors := st.stats.errors,
                     warnings := st.stats.warnings }
          log := st.log
          printed := st.printed ++ (extract_metadata_from_reader s d.entries table d.path).2 }) ∧
    (∀ dirs : List SeriesDir,
      (process_all_dicom_series table now dirs).stats.processed +
        (process_all_dicom_series table now dirs).stats.errors = dirs.length) := by
  refine ⟨?_, ?_, ?_, ?_⟩
  · intro e he
    simp [stepSeries, process_dicom_series, he]
  · intro s hs hmm
    simp [stepSeries, process_dicom_series, hs, hmm]
  · intro s hs hmatch
    simp [stepSeries, process_dicom_series, hs, hmatch]
  · intro dirs
    simp only [process_all_dicom_series]
    rw [foldl_stepSeries_outcome_total]
    simp

/-- C2, witness: a failing directory stepped from the empty state yields no
record, one error, and the `ERROR` log line. -/
theorem per_directory_outcome_classification_witness :
    stepSeries [] "T" emptyRunState c2ErrDir =
      { records := []
        stats := { processed := 0, errors := 1, warnings := 0 }
        log := [errorLine "T" "raw/P/S/ser1" "boom"]
        printed := [] } :=
  (per_directory_outcome_classification [] "T" c2ErrDir emptyRunState).1 "boom" rfl

/-- C4: a successfully loaded series whose `(patient_id, normalized
description)` key misses the lookup table gets the sentinel label
`"unknown"`, the miss warning is printed, the record is still produced and
appended, and the miss increments neither `errors` nor `warnings` — the
error counter is untouched and the warning counter moves only with the
slice-count mismatch, independently of the lookup. -/
theorem unmapped_label_fallback (table : LookupTable) (now : String) (d : SeriesDir)
    (s : LoadedSeries) (st : RunState)
    (hload : d.load = Except.ok s)
    (hmiss : lookupLabel table (s.patient_id, normalizeDescription s.series_description) =
      none) :
    (extract_metadata_from_reader s d.entries table d.path).1.generic_sequence_label =
      "unknown" ∧
    (extract_metadata_from_reader s d.entries table d.path).2 =
      ["Warning: No generic sequence label found for patient " ++ s.patient_id ++
        ", series " ++ s.series_description] ∧
    (stepSeries table now st d).records =
      st.records ++ [(extract_metadata_from_reader s d.entries table d.path).1] ∧
    (stepSeries table now st d).stats.errors = st.stats.errors ∧
    (stepSeries table now st d).stats.processed = st.stats.processed + 1 ∧
    (stepSeries table now st d).stats.warnings =
      st.stats.warnings + (if d.entries.length = s.image.size.2.2 then 0 else 1) := by
  refine ⟨?_, ?_, ?_, ?_, ?_, ?_⟩ <;>
    [skip; skip;
     by_cases hc : d.entries.length = s.image.size.2.2;
     by_cases hc : d.entries.length = s.image.size.2.2;
     by_cases hc : d.entries.length = s.image.size.2.2;
     by_cases hc : d.entries.length = s.image.size.2.2] <;>
    simp [extract_metadata_from_reader, stepSeries, process_dicom_series, hload, hmiss, *]

/-- C4, witness: a loaded series with an unmapped description, an empty
table and no slice mismatch — label is the sentinel, errors and warnings
stay zero. -/
theorem unmapped_label_fallback_witness :
    (extract_metadata_from_reader (sampleLoaded "P" "S" "mystery seq" 1) c4Dir.entries []
        c4Dir.path).1.generic_sequence_label = "unknown" ∧
    (stepSeries [] "T" emptyRunState c4Dir).stats.errors = 0 ∧
    (stepSeries [] "T" emptyRunState c4Dir).stats.warnings = 0 := by
  have h := unmapped_label_fallback [] "T" c4Dir (sampleLoaded "P" "S" "mystery seq" 1)
    emptyRunState rfl rfl
  exact ⟨h.1, h.2.2.2.1.trans rfl, h.2.2.2.2.2.trans (by decide)⟩

/-- Membership in a study group is membership in the table with that
`study_id`. -/
theorem mem_studyGroup {records : List SeriesRecord} {sid : String} {r : SeriesRecord} :
    r ∈ studyGroup records sid ↔ r ∈ records ∧ r.study_id = sid := by
  simp [studyGroup, List.mem_filter]

/-- Every record selected for a study comes from that study's group. -/
theorem mem_group_of_mem_selectForStudy {types : List String} {g : List SeriesRecord}
    {r : SeriesRecord} (hr : r ∈ selectForStudy types g) : r ∈ g := by
  unfold selectForStudy at hr
  split at hr
  · obtain ⟨t, -, hlast⟩ := List.mem_filterMap.mp hr
    exact (List.mem_filter.mp (List.mem_of_mem_getLast? hlast)).1
  · simp at hr

/-- A type is found exactly when it is required and some record of the group
carries it. -/
theorem mem_foundTypes {types : List String} {g : List SeriesRecord} {t : String} :
    t ∈ foundTypes types g ↔ t ∈ types ∧ ∃ r ∈ g, r.generic_sequence_label = t := by
  constructor
  · intro h
    have h2 := List.mem_filter.mp h
    refine ⟨h2.1, ?_⟩
    have h3 : g.filter (fun r => decide (r.generic_sequence_label = t)) ≠ [] := by
      intro hnil
      rw [List.isEmpty_iff.mpr hnil] at h2
      simp at h2
    obtain ⟨r, hrmem⟩ := List.exists_mem_of_ne_nil _ h3
    have h4 := List.mem_filter.mp hrmem
    exact ⟨r, h4.1, by simpa using h4.2⟩
  · rintro ⟨ht, r, hrg, hlbl⟩
    refine List.mem_filter.mpr ⟨ht, ?_⟩
    have hmem : r ∈ g.filter (fun r => decide (r.generic_sequence_label = t)) :=
      List.mem_filter.mpr ⟨hrg, by simpa using hlbl⟩
    have hnil : g.filter (fun r => decide (r.generic_sequence_label = t)) ≠ [] := by
      intro hnil
      rw [hnil] at hmem
      simp at hmem
    simpa [List.isEmpty_iff] using hnil

/-- The found types are the required types intersected with the labels
present in the group. -/
theorem foundTypes_toFinset (types : List String) (g : List SeriesRecord) :
    (foundTypes types g).toFinset =
      types.toFinset ∩ (g.map (fun r => r.generic_sequence_label)).toFinset := by
  ext t
  simp only [List.mem_toFinset, Finset.mem_inter, mem_foundTypes, List.mem_map]

/-- The completeness test `set(found_types) == set(series_types)` holds
exactly when the group's label set, intersected with the required set,
equals the required set. -/
theorem qualifies_iff (types : List String) (g : List SeriesRecord) :
    (foundTypes types g).toFinset = types.toFinset ↔
      (g.map (fun r => r.generic_sequence_label)).toFinset ∩ types.toFinset =
        types.toFinset := by
  rw [foundTypes_toFinset]
  constructor <;> intro h <;> rw [Finset.inter_comm] <;> exact h

/-- In a qualifying group every required type has at least one carrier. -/
theorem filter_ne_nil_of_qual {types : List String} {g : List SeriesRecord}
    (hq : (foundTypes types g).toFinset = types.toFinset) {t : String} (ht : t ∈ types) :
    g.filter (fun r => decide (r.generic_sequence_label = t)) ≠ [] := by
  have htf : t ∈ foundTypes types g := by
    have h1 := List.mem_toFinset.mpr ht
    rw [← hq] at h1
    exact List.mem_toFinset.mp h1
  obtain ⟨-, r, hrg, hlbl⟩ := mem_foundTypes.mp htf
  intro hnil
  have hmem : r ∈ g.filter (fun r => decide (r.generic_sequence_label = t)) :=
    List.mem_filter.mpr ⟨hrg, by simpa using hlbl⟩
  rw [hnil] at hmem
  simp at hmem

/-- For a qualifying group the selected records' labels are exactly the
required types, in order. -/
theorem selectForStudy_map_label {types : List String} {g : List SeriesRecord}
    (hq : (foundTypes types g).toFinset = types.toFinset) :
    (selectForStudy types g).map (fun r => r.generic_sequence_label) = types := by
  unfold selectForStudy
  rw [if_pos hq]
  have key : ∀ ts : List String,
      (∀ t ∈ ts, g.filter (fun r => decide (r.generic_sequence_label = t)) ≠ []) →
      ((ts.filterMap (fun t =>
          (g.filter (fun r => decide (r.generic_sequence_label = t))).getLast?)).map
        (fun r => r.generic_sequence_label)) = ts := by
    intro ts
    induction ts with
    | nil => intro _; rfl
    | cons t ts ih =>
        intro h
        have hne := h t (List.mem_cons_self t ts)
        have hne2 : (g.filter (fun r => decide (r.generic_sequence_label = t))).getLast? ≠
            none := fun hnone => hne (List.getLast?_eq_none_iff.mp hnone)
        obtain ⟨r, hr⟩ := Option.ne_none_iff_exists'.mp hne2
        have hlbl : r.generic_sequence_label = t := by
          have h5 := List.mem_filter.mp (List.mem_of_mem_getLast? hr)
          simpa using h5.2
        simp only [List.filterMap_cons, hr, List.map_cons, hlbl,
          ih (fun x hx => h x (List.mem_cons_of_mem _ hx))]
  exact key types (fun t ht => filter_ne_nil_of_qual hq ht)

/-- C3: within a qualifying study group, the record the consolidator selects
for any label is the last record in the group's stored order carrying that
label (`seq_group.iloc[-1]`): every selected record is the `getLast?` of the
group filtered to its label. -/
theorem tie_break_selects_last (series_types : List String) (group : List SeriesRecord)
    (r : SeriesRecord) (hr : r ∈ selectForStudy series_types group) :
    (group.filter
      (fun x => decide (x.generic_sequence_label = r.generic_sequence_label))).getLast? =
      some r := by
  unfold selectForStudy at hr
  split at hr
  · obtain ⟨t, -, hlast⟩ := List.mem_filterMap.mp hr
    have hlbl : r.generic_sequence_label = t := by
      have h5 := List.mem_filter.mp (List.mem_of_mem_getLast? hlast)
      simpa using h5.2
    rw [hlbl]
    exact hlast
  · simp at hr

/-- C3, witness: a study with two `T1` records in stored order `[A, B]`
resolves its `T1` slot to `B`. -/
theorem tie_break_selects_last_witness :
    ([c3RecA, c3RecB].filter
      (fun x => decide (x.generic_sequence_label = "T1"))).getLast? = some c3RecB :=
  tie_break_selects_last ["T1"] [c3RecA, c3RecB] c3RecB (by decide)

/-- C8: for a qualifying study group with pairwise-distinct required labels,
the consolidator selects exactly one record per required label: the selected
records are as many as the required labels, their labels are pairwise
distinct, and they cover the required set exactly. -/
theorem consolidated_study_invariant (series_types : List String)
    (group : List SeriesRecord)
    (hq : (foundTypes series_types group).toFinset = series_types.toFinset)
    (hnd : series_types.Nodup) :
    (selectForStudy series_types group).length = series_types.length ∧
    ((selectForStudy series_types group).map (fun r => r.generic_sequence_label)).Nodup ∧
    ((selectForStudy series_types group).map (fun r => r.generic_sequence_label)).toFinset =
      series_types.toFinset := by
  have hmap := selectForStudy_map_label hq
  refine ⟨?_, ?_, ?_⟩
  · have h1 := congrArg List.length hmap
    simpa using h1
  · rw [hmap]; exact hnd
  · rw [hmap]

/-- C8, witness: one study with a single `T1` record, required = `[T1]`. -/
theorem consolidated_study_invariant_witness :
    (selectForStudy ["T1"] [sampleRecord "S" "T1" "p1"]).length =
      (["T1"] : List String).length ∧
    ((selectForStudy ["T1"] [sampleRecord "S" "T1" "p1"]).map
      (fun r => r.generic_sequence_label)).Nodup ∧
    ((selectForStudy ["T1"] [sampleRecord "S" "T1" "p1"]).map
      (fun r => r.generic_sequence_label)).toFinset = (["T1"] : List String).toFinset :=
  consolidated_study_invariant ["T1"] [sampleRecord "S" "T1" "p1"] (by decide) (by decide)

/-- C1: a study contributes records to the consolidation output exactly when
the set of canonical labels carried by its records, intersected with the
required set, equals the required set — incomplete studies produce no output
at all, and extra non-required labels (`"unknown"` included) do not
disqualify. -/
theorem consolidation_membership_iff (series_types : List String)
    (records : List SeriesRecord) (sid : String) (hne : series_types ≠ []) :
    (∃ r ∈ select_single_series_per_type series_types records, r.study_id = sid) ↔
      ((studyGroup records sid).map (fun r => r.generic_sequence_label)).toFinset ∩
        series_types.toFinset = series_types.toFinset := by
  constructor
  · rintro ⟨r, hr, hsid⟩
    obtain ⟨sid', hsid', hrsel⟩ := List.mem_flatMap.mp hr
    have hrg := mem_group_of_mem_selectForStudy hrsel
    have hsid2 : r.study_id = sid' := (mem_studyGroup.mp hrg).2
    have heq : sid' = sid := hsid2.symm.trans hsid
    subst heq
    have hq : (foundTypes series_types (studyGroup records sid')).toFinset =
        series_types.toFinset := by
      by_contra hq
      unfold selectForStudy at hrsel
      rw [if_neg hq] at hrsel
      simp at hrsel
    exact (qualifies_iff _ _).mp hq
  · intro hlab
    have hq := (qualifies_iff series_types (studyGroup records sid)).mpr hlab
    obtain ⟨t, ht⟩ := List.exists_mem_of_ne_nil series_types hne
    have hfil := filter_ne_nil_of_qual hq ht
    obtain ⟨r0, hr0⟩ := List.exists_mem_of_ne_nil _ hfil
    have hr0g : r0 ∈ studyGroup records sid := (List.mem_filter.mp hr0).1
    have hsidmem : sid ∈ studyIds records := by
      unfold studyIds
      rw [List.Perm.mem_iff (List.mergeSort_perm _ _), List.mem_dedup]
      exact List.mem_map.mpr ⟨r0, (mem_studyGroup.mp hr0g).1, (mem_studyGroup.mp hr0g).2⟩
    have hmap := selectForStudy_map_label hq
    have hsel : selectForStudy series_types (studyGroup records sid) ≠ [] := by
      intro h0
      rw [h0] at hmap
      exact hne hmap.symm
    obtain ⟨r, hrsel⟩ := List.exists_mem_of_ne_nil _ hsel
    exact ⟨r, List.mem_flatMap.mpr ⟨sid, hsidmem, hrsel⟩,
      (mem_studyGroup.mp (mem_group_of_mem_selectForStudy hrsel)).2⟩

/-- C1, witness: required = `[T1]`; a study whose single record carries `T1`
appears in the output. -/
theorem consolidation_membership_iff_witness :
    ∃ r ∈ select_single_series_per_type ["T1"] [sampleRecord "S" "T1" "p1"],
      r.study_id = "S" :=
  (consolidation_membership_iff ["T1"] [sampleRecord "S" "T1" "p1"] "S"
    (by decide)).mpr (by decide)

/-- Every element of a successful `mapM` over `Option` is the image of some
list element. -/
theorem exists_of_mem_mapM_option {α β : Type} (f : α → Option β) :
    ∀ (l : List α) (res : List β), l.mapM f = some res → ∀ b ∈ res, ∃ a ∈ l, f a = some b := by
  intro l
  induction l with
  | nil =>
      intro res h b hb
      simp only [List.mapM_nil, Option.pure_def, Option.some.injEq] at h
      subst h
      simp at hb
  | cons a l ih =>
      intro res h b hb
      rw [List.mapM_cons] at h
      simp only [Option.bind_eq_bind, Option.pure_def, Option.bind_eq_some,
        Option.some.injEq] at h
      obtain ⟨x, hx, xs, hxs, hres⟩ := h
      subst hres
      rcases List.mem_cons.mp hb with rfl | hb2
      · exact ⟨a, List.mem_cons_self a l, hx⟩
      · obtain ⟨a2, ha2, hfa2⟩ := ih xs hxs b hb2
        exact ⟨a2, List.mem_cons_of_mem _ ha2, hfa2⟩

/-- A successful `mapM` over `Option` contains the image of every list
element. -/
theorem mem_of_mapM_option_forward {α β : Type} (f : α → Option β) :
    ∀ (l : List α) (res : List β), l.mapM f = some res →
      ∀ a ∈ l, ∀ b, f a = some b → b ∈ res := by
  intro l
  induction l with
  | nil =>
      intro res h a ha
      simp at ha
  | cons x l ih =>
      intro res h a ha b hb
      rw [List.mapM_cons] at h
      simp only [Option.bind_eq_bind, Option.pure_def, Option.bind_eq_some,
        Option.some.injEq] at h
      obtain ⟨y, hy, ys, hys, hres⟩ := h
      subst hres
      rcases List.mem_cons.mp ha with rfl | ha2
      · have h2 : y = b := Option.some.inj (hy.symm.trans hb)
        subst h2
        exact List.mem_cons_self _ _
      · exact List.mem_cons_of_mem _ (ih ys hys a ha2 b hb)

/-- The resampled volume takes the reference grid size. -/
theorem resampleExecute_size (rs : Resampler) (img : Image) :
    (resampleExecute rs img).size = rs.referenceImage.size := rfl

/-- The resampled volume takes the reference grid spacing. -/
theorem resampleExecute_spacing (rs : Resampler) (img : Image) :
    (resampleExecute rs img).spacing = rs.referenceImage.spacing := rfl

/-- The resampled volume takes the reference grid direction. -/
theorem resampleExecute_direction (rs : Resampler) (img : Image) :
    (resampleExecute rs img).direction = rs.referenceImage.direction := rfl

/-- C7: for a consolidated study the engine writes the reference volume
first, to `{processed_root}/{patient_id}/{study_id}/` under its slot name,
with voxel values exactly as loaded; every other output is produced by the
nearest-neighbor-configured resampler whose target grid is the reference
volume's; every written volume (reference included) carries the reference
volume's size, spacing and direction; and for every non-reference required
label with a carrier row in the study (its `iloc[0]` pick), the written
outputs contain, under that label's slot name in the study's output
directory, exactly that label's own loaded volume resampled through the
nearest-neighbor reference resampler. -/
theorem resampling_uniform_grid (fs : String → Image)
    (series_to_process : List (String × String)) (reference_series : String)
    (dicom_processed dicom_raw : String) (study_id : String)
    (study : List SeriesRecord) (outs : List (String × Image))
    (first ref_row : SeriesRecord) (refSlot : String)
    (hfirst : study.head? = some first)
    (href : (study.filter
      (fun r => decide (r.generic_sequence_label = reference_series))).head? = some ref_row)
    (hslot : lookupSlot series_to_process reference_series = some refSlot)
    (hout : process_study fs series_to_process reference_series dicom_processed dicom_raw
      study_id study = some outs) :
    outs.head? = some
      (pathJoin (pathJoin dicom_processed (first.patient_id ++ "/" ++ study_id ++ "/"))
        ("image_" ++ refSlot ++ ".mha"),
       fs (pathJoin dicom_raw ref_row.folder_path)) ∧
    (∀ o ∈ outs,
      o.2.size = (fs (pathJoin dicom_raw ref_row.folder_path)).size ∧
      o.2.spacing = (fs (pathJoin dicom_raw ref_row.folder_path)).spacing ∧
      o.2.direction = (fs (pathJoin dicom_raw ref_row.folder_path)).direction) ∧
    (∀ o ∈ outs.tail, ∃ img,
      o.2 = resampleExecute
        { referenceImage := fs (pathJoin dicom_raw ref_row.folder_path)
          interpolator := Interpolator.nearestNeighbor } img) ∧
    (∀ p ∈ series_to_process, p.1 ≠ reference_series →
      ∀ add_row,
        (study.filter (fun r => decide (r.generic_sequence_label = p.1))).head? =
          some add_row →
        (pathJoin (pathJoin dicom_processed (first.patient_id ++ "/" ++ study_id ++ "/"))
            ("image_" ++ p.2 ++ ".mha"),
          resampleExecute
            { referenceImage := fs (pathJoin dicom_raw ref_row.folder_path)
              interpolator := Interpolator.nearestNeighbor }
            (fs (pathJoin dicom_raw add_row.folder_path))) ∈ outs) := by
  unfold process_study at hout
  rw [hfirst, href, hslot] at hout
  simp only [Option.bind_eq_bind, Option.some_bind, Option.pure_def, Option.bind_eq_some,
    Option.some.injEq] at hout
  obtain ⟨rest, hrest, houts⟩ := hout
  subst houts
  have hrestMem := exists_of_mem_mapM_option _ _ _ hrest
  have hbodyShape : ∀ o ∈ rest, ∃ img,
      o.2 = resampleExecute
        { referenceImage := fs (pathJoin dicom_raw ref_row.folder_path)
          interpolator := Interpolator.nearestNeighbor } img := by
    intro o ho
    obtain ⟨p, -, hbody⟩ := hrestMem o ho
    simp only [Option.bind_eq_bind, Option.pure_def, Option.bind_eq_some,
      Option.some.injEq] at hbody
    obtain ⟨add_row, -, hoeq⟩ := hbody
    refine ⟨fs (pathJoin dicom_raw add_row.folder_path), ?_⟩
    rw [← hoeq]
  refine ⟨rfl, ?_, hbodyShape, ?_⟩
  · intro o ho
    rcases List.mem_cons.mp ho with rfl | ho2
    · exact ⟨rfl, rfl, rfl⟩
    · obtain ⟨img, himg⟩ := hbodyShape o ho2
      rw [himg]
      exact ⟨resampleExecute_size _ _, resampleExecute_spacing _ _,
        resampleExecute_direction _ _⟩
  · intro p hp hpne add_row hrow
    have hpf : p ∈ series_to_process.filter (fun q => decide (q.1 ≠ reference_series)) :=
      List.mem_filter.mpr ⟨hp, by simpa using hpne⟩
    exact List.mem_cons_of_mem _
      (mem_of_mapM_option_forward _ _ _ hrest p hpf _
        (by simp only [hrow, Option.bind_eq_bind, Option.some_bind, Option.pure_def]))

/-- C7, witness: a one-study fixture with required types `T1` (reference)
and `T2`; the reference is written first and unchanged, the resampled `T2`
output carries the reference grid size, and the `T2` slot receives the `T2`
row's own loaded volume resampled through the reference resampler. -/
theorem resampling_uniform_grid_witness :
    c7Outs.head? = some ("out/P/S/image_t1.mha", c7Img) ∧
    (resampleExecute { referenceImage := c7Img, interpolator := Interpolator.nearestNeighbor }
        c7Img).size = c7Img.size ∧
    ("out/P/S/image_t2.mha",
      resampleExecute { referenceImage := c7Img, interpolator := Interpolator.nearestNeighbor }
        c7Img) ∈ c7Outs :=
  ⟨(resampling_uniform_grid c7Fs [("T1", "t1"), ("T2", "t2")] "T1" "out" "raw" "S"
      c7Study c7Outs c7RecT1 c7RecT1 "t1" rfl rfl rfl (by rfl)).1,
   ((resampling_uniform_grid c7Fs [("T1", "t1"), ("T2", "t2")] "T1" "out" "raw" "S"
      c7Study c7Outs c7RecT1 c7RecT1 "t1" rfl rfl rfl (by rfl)).2.1
     ("out/P/S/image_t2.mha",
       resampleExecute
         { referenceImage := c7Img, interpolator := Interpolator.nearestNeighbor }
         c7Img) (List.mem_cons_of_mem _ (List.mem_cons_self _ _))).1,
   (resampling_uniform_grid c7Fs [("T1", "t1"), ("T2", "t2")] "T1" "out" "raw" "S"
      c7Study c7Outs c7RecT1 c7RecT1 "t1" rfl rfl rfl (by rfl)).2.2.2
     ("T2", "t2") (by decide) (by decide) c7RecT2 rfl⟩

end PromisPreprocess
